import Mathlib

/-!
# Verification of the CareerViet job-scraping and cleaning pipeline

Shallow embedding of the repository's core logic:

* `src/scraper.py`   — `CareerVietScraper` (listing extraction, detail extraction,
  orchestrator merge/dedup),
* `data_processing/cleaning.py`   — `JobDataCleaner` (dates, salary, experience),
* `data_processing/transformation.py` — `SkillsExtractor` (translation guard,
  whole-word skill matching).

Python strings are modelled as Lean `String` (processed through `List Char`);
`NaN`/`None`-able cells as `Option`; pandas numeric columns as `Option ℚ`
(`none` = `NaN`).  The Unicode case table is restricted to ASCII plus the
Vietnamese letters that the pipeline's keyword constants use.
-/

-- The Batteries rational primitives are `@[irreducible]`, which blocks
-- `decide`-based evaluation of concrete pipeline runs; re-open them.
unseal Rat.mul Rat.add Rat.sub Rat.inv

namespace Py

/-- Whitespace characters recognised by Python's `str.strip` / regex `\s`
(ASCII subset, which is all the pipeline's data uses). -/
def wsChars : List Char := [' ', '\t', '\n', '\r', '\x0b', '\x0c']

def isWs (c : Char) : Bool := wsChars.contains c

def isDigitCh (c : Char) : Bool := '0' ≤ c ∧ c ≤ '9'

def isAsciiAlpha (c : Char) : Bool := ('a' ≤ c ∧ c ≤ 'z') ∨ ('A' ≤ c ∧ c ≤ 'Z')

/-- Case pairs (lower, upper) for the Vietnamese letters appearing in the
pipeline's keyword constants; ASCII letters are handled arithmetically. -/
def viCasePairs : List (Char × Char) :=
  [('à','À'), ('á','Á'), ('ả','Ả'), ('ã','Ã'), ('ạ','Ạ'),
   ('ă','Ă'), ('ằ','Ằ'), ('ắ','Ắ'), ('ẳ','Ẳ'), ('ẵ','Ẵ'), ('ặ','Ặ'),
   ('â','Â'), ('ầ','Ầ'), ('ấ','Ấ'), ('ẩ','Ẩ'), ('ẫ','Ẫ'), ('ậ','Ậ'),
   ('è','È'), ('é','É'), ('ẻ','Ẻ'), ('ẽ','Ẽ'), ('ẹ','Ẹ'),
   ('ê','Ê'), ('ề','Ề'), ('ế','Ế'), ('ể','Ể'), ('ễ','Ễ'), ('ệ','Ệ'),
   ('ì','Ì'), ('í','Í'), ('ỉ','Ỉ'), ('ĩ','Ĩ'), ('ị','Ị'),
   ('ò','Ò'), ('ó','Ó'), ('ỏ','Ỏ'), ('õ','Õ'), ('ọ','Ọ'),
   ('ô','Ô'), ('ồ','Ồ'), ('ố','Ố'), ('ổ','Ổ'), ('ỗ','Ỗ'), ('ộ','Ộ'),
   ('ơ','Ơ'), ('ờ','Ờ'), ('ớ','Ớ'), ('ở','Ở'), ('ỡ','Ỡ'), ('ợ','Ợ'),
   ('ù','Ù'), ('ú','Ú'), ('ủ','Ủ'), ('ũ','Ũ'), ('ụ','Ụ'),
   ('ư','Ư'), ('ừ','Ừ'), ('ứ','Ứ'), ('ử','Ử'), ('ữ','Ữ'), ('ự','Ự'),
   ('ỳ','Ỳ'), ('ý','Ý'), ('ỷ','Ỷ'), ('ỹ','Ỹ'), ('ỵ','Ỵ'),
   ('đ','Đ')]

def toLowerCh (c : Char) : Char :=
  if 'A' ≤ c ∧ c ≤ 'Z' then Char.ofNat (c.toNat + 32)
  else match viCasePairs.find? (fun p => p.2 = c) with
       | some p => p.1
       | none => c

def toUpperCh (c : Char) : Char :=
  if 'a' ≤ c ∧ c ≤ 'z' then Char.ofNat (c.toNat - 32)
  else match viCasePairs.find? (fun p => p.1 = c) with
       | some p => p.2
       | none => c

/-- Cased letter (for `str.title`'s notion of word starts). -/
def isCased (c : Char) : Bool :=
  isAsciiAlpha c ∨ viCasePairs.any (fun p => p.1 = c ∨ p.2 = c)

/-- `\w` word characters for regex word boundaries (letters, digits, underscore). -/
def isWordCh (c : Char) : Bool := isDigitCh c ∨ c = '_' ∨ isCased c

def lstripL (l : List Char) : List Char := l.dropWhile isWs

def rstripL (l : List Char) : List Char := (l.reverse.dropWhile isWs).reverse

/-- Python `str.strip()` on char lists. -/
def stripL (l : List Char) : List Char := rstripL (lstripL l)

/-- Python `str.strip(chars)` on char lists. -/
def stripCharsL (cs : List Char) (l : List Char) : List Char :=
  ((l.dropWhile cs.contains).reverse.dropWhile cs.contains).reverse

/-- Python `str.lower()` on char lists. -/
def lowerL (l : List Char) : List Char := l.map toLowerCh

/-- Python `str.title()`: uppercase each cased character that follows an
uncased one, lowercase cased characters that follow cased ones. -/
def titleAux : Bool → List Char → List Char
  | _, [] => []
  | prevCased, c :: rest =>
    if isCased c then
      (if prevCased then toLowerCh c else toUpperCh c) :: titleAux true rest
    else
      c :: titleAux false rest

def titleL (l : List Char) : List Char := titleAux false l

/-- Python substring containment (`pat in s`). -/
def containsL (pat : List Char) : List Char → Bool
  | [] => pat.isPrefixOf ([] : List Char)
  | s@(_ :: rest) => pat.isPrefixOf s || containsL pat rest

/-- `re.sub(r'\s+', ' ', s)`: collapse each whitespace run to a single space. -/
def collapseWsAux : Bool → List Char → List Char
  | _, [] => []
  | prevWs, c :: rest =>
    if isWs c then
      (if prevWs then collapseWsAux true rest else ' ' :: collapseWsAux true rest)
    else c :: collapseWsAux false rest

def collapseWsL (l : List Char) : List Char := collapseWsAux false l

/-- Python `str.replace(pat, repl)` (all non-overlapping occurrences, left to
right).  A `pat` of `[]` is returned unchanged (the source never does that).
The recursion is driven by a fuel argument — every step consumes at least
one character, so fuel `l.length` is exact — keeping the definition
structural and kernel-computable. -/
def replaceLF (pat repl : List Char) : ℕ → List Char → List Char
  | 0, s => s
  | _ + 1, [] => []
  | fuel + 1, c :: rest =>
    if pat.isPrefixOf (c :: rest) ∧ pat ≠ [] then
      repl ++ replaceLF pat repl fuel ((c :: rest).drop pat.length)
    else
      c :: replaceLF pat repl fuel rest

def replaceL (pat repl : List Char) (l : List Char) : List Char :=
  replaceLF pat repl l.length l

/-- Python `str.split(sep)` for a single-character separator. -/
def splitChAux (sep : Char) : List Char → List Char → List (List Char)
  | acc, [] => [acc.reverse]
  | acc, c :: rest =>
    if c = sep then acc.reverse :: splitChAux sep [] rest
    else splitChAux sep (c :: acc) rest

def splitChL (sep : Char) (l : List Char) : List (List Char) := splitChAux sep [] l

/-- Value of a (nonempty) digit run. -/
def digitsToNat (l : List Char) : ℕ :=
  l.foldl (fun acc c => 10 * acc + (c.toNat - 48)) 0

/-- `re.search(r'(\d+)', s)`: the first maximal digit run, as a natural. -/
def firstNatL : List Char → Option ℕ
  | [] => none
  | c :: rest =>
    if isDigitCh c then some (digitsToNat (c :: rest.takeWhile isDigitCh))
    else firstNatL rest

/-- `re.search(r'(\d+\.?\d*)', s)` followed by numeric coercion: the first
digit run with an optional fractional part, as a rational. -/
def firstDecimalL : List Char → Option ℚ
  | [] => none
  | c :: rest =>
    if isDigitCh c then
      let intPart := c :: rest.takeWhile isDigitCh
      let rest' := rest.drop (rest.takeWhile isDigitCh).length
      match rest' with
      | '.' :: tail =>
        let fracPart := tail.takeWhile isDigitCh
        some ((digitsToNat intPart : ℚ) + (digitsToNat fracPart : ℚ) / ((10 : ℚ) ^ fracPart.length))
      | _ => some ((digitsToNat intPart : ℚ))
    else firstDecimalL rest

/-- Count of `[a-zA-Z]` characters (`len(re.findall(r'[a-zA-Z]', s))`). -/
def alphaCountL (l : List Char) : ℕ := (l.filter isAsciiAlpha).length

-- String-level wrappers ------------------------------------------------------

def strip (s : String) : String := ⟨stripL s.data⟩
def stripChars (cs : String) (s : String) : String := ⟨stripCharsL cs.data s.data⟩
def lower (s : String) : String := ⟨lowerL s.data⟩
def title (s : String) : String := ⟨titleL s.data⟩
def containsSub (s pat : String) : Bool := containsL pat.data s.data
def collapseWs (s : String) : String := ⟨collapseWsL s.data⟩
def replace (s pat repl : String) : String := ⟨replaceL pat.data repl.data s.data⟩
def splitCh (sep : Char) (s : String) : List String := (splitChL sep s.data).map (⟨·⟩)
def firstNat (s : String) : Option ℕ := firstNatL s.data
def firstDecimal (s : String) : Option ℚ := firstDecimalL s.data
def alphaCount (s : String) : ℕ := alphaCountL s.data
def startsWith (s pre : String) : Bool := pre.data.isPrefixOf s.data

/-- Arithmetic mean of a pandas numeric column (`Series.mean()` skips `NaN`;
an all-`NaN` column has mean `NaN` = `none`). -/
def meanQ (l : List ℚ) : Option ℚ :=
  if l.isEmpty then none else some (l.sum / (l.length : ℚ))

/-- Python `round(x, 0)` (banker's rounding, half to even). -/
def roundHalfEven (q : ℚ) : ℤ :=
  let f := ⌊q⌋
  let r := q - (f : ℚ)
  if r < 1/2 then f
  else if 1/2 < r then f + 1
  else if f % 2 = 0 then f else f + 1

end Py

/-! ## `data_processing/cleaning.py` — `JobDataCleaner` -/

namespace Cleaning

open Py

/-- A pandas cell as seen by `_convert_expire_date`: a string, or any
non-string value (`NaN`, numbers, dates, ...). -/
inductive PyCell where
  | str (s : String)
  | nonstr
deriving DecidableEq

/-- Result of `_convert_expire_date`: a `datetime.date` (as a day number on
the proleptic Gregorian calendar) or the literal `'unknown'` sentinel. -/
inductive ExpireVal where
  | date (n : ℤ)
  | unknown
deriving DecidableEq

def isLeapYear (y : ℕ) : Bool := (y % 4 = 0 ∧ y % 100 ≠ 0) ∨ y % 400 = 0

def monthLength (y m : ℕ) : ℕ :=
  if m = 2 then (if isLeapYear y then 29 else 28)
  else if m = 4 ∨ m = 6 ∨ m = 9 ∨ m = 11 then 30
  else 31

/-- Days in year `y` before month `m`. -/
def daysBeforeMonth (y m : ℕ) : ℕ :=
  ((List.range' 1 (m - 1)).map (monthLength y)).sum

/-- Day number of the Gregorian date `y-m-d` (1-1-1 is day 1), matching
`datetime.date.toordinal`. -/
def rataDie (y m d : ℕ) : ℤ :=
  365 * ((y : ℤ) - 1) + ((y - 1) / 4 : ℕ) - ((y - 1) / 100 : ℕ) + ((y - 1) / 400 : ℕ)
    + (daysBeforeMonth y m : ℤ) + (d : ℤ)

/-- `datetime.strptime(x, "%d-%m-%Y").date()`: the whole string must be
`D-M-Y` with 1–2 digit day in 1..31, 1–2 digit month in 1..12, exactly 4
digit year, and the day valid for that month (else `ValueError`). -/
def parseDMY (s : String) : Option (ℕ × ℕ × ℕ) :=
  match splitChL '-' s.data with
  | [p1, p2, p3] =>
    if p1 ≠ [] ∧ p1.all isDigitCh ∧ p1.length ≤ 2 ∧
       p2 ≠ [] ∧ p2.all isDigitCh ∧ p2.length ≤ 2 ∧
       p3.all isDigitCh ∧ p3.length = 4 then
      let d := digitsToNat p1
      let m := digitsToNat p2
      let y := digitsToNat p3
      if 1 ≤ d ∧ 1 ≤ m ∧ m ≤ 12 ∧ 1 ≤ y ∧ d ≤ monthLength y m then
        some (d, m, y)
      else none
    else none
  | _ => none

/-- `JobDataCleaner._convert_expire_date` (cleaning.py lines 62–78), with
`self.today` passed as a day number. -/
def convert_expire_date (today : ℤ) (x : PyCell) : ExpireVal :=
  match x with
  | .nonstr => .unknown
  | .str s =>
    if containsSub s "Hôm nay" then .date today
    else if containsSub s "ngày" then
      match firstNat s with
      | some n => .date (today + n)
      | none => .unknown
    else if containsSub s "-" then
      match parseDMY s with
      | some (d, m, y) => .date (rataDie y m d)
      | none => .unknown
    else .unknown

/-! ### `_clean_salary` (with `_clean_text_fields` title-casing first) -/

def isDigitComma (c : Char) : Bool := isDigitCh c ∨ c = ','

/-- Attempt the pattern `([\d,]+)?[^\d]+([\d,]+)?\s*([A-Za-z]+)?` anchored at
the start of `s`, with the greedy/backtracking semantics of `re.search`:
group 1 takes the longest `[\d,]` run that still leaves a non-digit for
`[^\d]+`; the remaining groups are greedy and optional. -/
def salaryGroupsAt (s : List Char) : Option (Option (List Char) × Option (List Char) × Option (List Char)) :=
  let run := s.takeWhile isDigitComma
  match ((List.range (run.length + 1)).reverse).find?
      (fun k => match (s.drop k).head? with
                | some c => ¬ isDigitCh c
                | none => false) with
  | none => none
  | some k =>
    let g1 := s.take k
    let after1 := s.drop k
    let nd := after1.takeWhile (fun c => ¬ isDigitCh c)
    let after2 := after1.drop nd.length
    let g2 := after2.takeWhile isDigitComma
    let after3 := after2.drop g2.length
    let after4 := after3.drop (after3.takeWhile isWs).length
    let g3 := after4.takeWhile isAsciiAlpha
    some ((if g1 = [] then none else some g1),
          (if g2 = [] then none else some g2),
          (if g3 = [] then none else some g3))

/-- `df['Salary'].str.extract(r'([\d,]+)?[^\d]+([\d,]+)?\s*([A-Za-z]+)?')`:
leftmost match of the pattern. -/
def salaryGroups : List Char → Option (Option (List Char) × Option (List Char) × Option (List Char))
  | [] => none
  | s@(_ :: rest) =>
    match salaryGroupsAt s with
    | some g => some g
    | none => salaryGroups rest

/-- `pd.to_numeric(group.str.replace(',', ''), errors='coerce')`. -/
def groupToNum (g : Option (List Char)) : Option ℚ :=
  g.bind (fun l =>
    let ds := l.filter (fun c => c ≠ ',')
    if ds = [] then none else some ((digitsToNat ds : ℚ)))

/-- `re.extract(r'Lên Đến (\d+)')` on a salary string: first occurrence of
the literal `"Lên Đến "` followed by at least one digit. -/
def lenDenValue : List Char → Option ℚ
  | [] => none
  | s@(_ :: rest) =>
    let pat := ("Lên Đến ").data
    if pat.isPrefixOf s && (((s.drop pat.length).head?.map isDigitCh).getD false) then
      some ((digitsToNat ((s.drop pat.length).takeWhile isDigitCh) : ℚ))
    else lenDenValue rest

/-- Per-row regex extraction, numeric coercion, and the `'Tr'` / `'Usd'`
scaling steps of `_clean_salary` (cleaning.py lines 100–114), on the
title-cased salary text. -/
def salaryScaleRow (exchange_rate : ℚ) (s0 : String) : String × Option ℚ × Option ℚ :=
  let s := title s0
  let parsed := match salaryGroups s.data with
    | some (g1, g2, g3) => (groupToNum g1, groupToNum g2, g3.map (⟨·⟩ : List Char → String))
    | none => (none, none, none)
  let p := if parsed.2.2 = some "Tr" then
      (parsed.1.map (· * 1000000), parsed.2.1.map (· * 1000000))
    else (parsed.1, parsed.2.1)
  let p := if containsSub s "Usd" then
      (p.1.map (· * exchange_rate), p.2.map (· * exchange_rate))
    else p
  (s, p.1, p.2)

/-- The `'Lên Đến'` rule (cleaning.py lines 117–123): Min ← mean of the
current Min column, Max ← the extracted value times 1e6. -/
def salaryLenDenRow (meanMin : Option ℚ) (r : String × Option ℚ × Option ℚ) :
    String × Option ℚ × Option ℚ :=
  if containsSub r.1 "Lên Đến" then (r.1, meanMin, (lenDenValue r.1.data).map (· * 1000000))
  else r

/-- `fillna(round(column.mean(), 0))` for one row (`none` stays `none` when
the whole column is `NaN`). -/
def fillPair (fillMin fillMax : Option ℚ) (r : String × Option ℚ × Option ℚ) :
    Option ℚ × Option ℚ :=
  (r.2.1.or fillMin, r.2.2.or fillMax)

/-- Rounded column mean used by `fillna` for the first numeric component. -/
def minFill (rows : List (String × Option ℚ × Option ℚ)) : Option ℚ :=
  (meanQ (rows.filterMap (fun r => r.2.1))).map (fun q => ((roundHalfEven q : ℤ) : ℚ))

/-- Rounded column mean used by `fillna` for the second numeric component. -/
def maxFill (rows : List (String × Option ℚ × Option ℚ)) : Option ℚ :=
  (meanQ (rows.filterMap (fun r => r.2.2))).map (fun q => ((roundHalfEven q : ℤ) : ℚ))

/-- `JobDataCleaner._clean_salary` (cleaning.py lines 97–135) applied to the
`Salary` column, after `_clean_text_fields` has title-cased it (line 93).
Other cleaning steps do not read or write the salary columns, so the column
is processed on its own; each output pair is `(Min_Salary, Max_Salary)`
with `none` for `NaN`.  The `'Lên Đến'` mean is taken over the column
*before* that rule's assignments (line 118); the `fillna` means over the
column after them (lines 129–133). -/
def cleanSalaryColumn (exchange_rate : ℚ) (raw : List String) : List (Option ℚ × Option ℚ) :=
  let scaled := raw.map (salaryScaleRow exchange_rate)
  let meanMin := meanQ (scaled.filterMap (fun r => r.2.1))
  let step2 := scaled.map (salaryLenDenRow meanMin)
  step2.map (fillPair (minFill step2) (maxFill step2))

/-! ### `_clean_experience` -/

/-- The per-row part of `_clean_experience` up to and including the three
keyword masks (cleaning.py lines 140–166): title-case + strip, split on
`'-'`, numeric extraction, then the "Chưa Có Kinh Nghiệm" / "Trên" /
"Lên Đến" rules.  Returns `none` when the `df[['exp_min','exp_max']] =
....str.split('-', expand=True)` assignment would raise, i.e. when the
split does not produce exactly two columns. -/
def experienceRow (s : String) : String × Option ℚ × Option ℚ :=
  let p := splitChL '-' s.data
  let mn := firstDecimalL (p.headD [])
  let mx := (p.drop 1).head?.bind firstDecimalL
  let r := if containsSub s "Chưa Có Kinh Nghiệm" then (some (0 : ℚ), some (0 : ℚ)) else (mn, mx)
  let r := if containsSub s "Trên" then (r.1, none) else r
  let r := if containsSub s "Lên Đến" then (some (0 : ℚ), r.2) else r
  (s, r.1, r.2)

/-- The column of `'-'`-split cells whose shape decides whether the
`expand=True` assignment is well-formed. -/
def experienceParts (raw : List String) : List (List (List Char)) :=
  raw.map (fun s => splitChL '-' (strip (title s)).data)

def experienceStage (raw : List String) : Option (List (String × Option ℚ × Option ℚ)) :=
  if (experienceParts raw).all (fun p => p.length ≤ 2) ∧
     (experienceParts raw).any (fun p => p.length = 2) then
    some ((raw.map (fun s => strip (title s))).map experienceRow)
  else none

/-- The value `round(df['exp_max'].mean(), 0)` used by `fillna` at
imputation time (cleaning.py lines 172–173). -/
def expMaxImpute (raw : List String) : Option ℚ :=
  (experienceStage raw).bind maxFill

/-- `JobDataCleaner._clean_experience` (cleaning.py lines 137–179) applied to
the `Experience` column (`astype(str)` makes every cell a string); each
output pair is `(exp_min, exp_max)`. -/
def cleanExperienceColumn (raw : List String) : Option (List (Option ℚ × Option ℚ)) :=
  (experienceStage raw).map (fun rows =>
    rows.map (fillPair (minFill rows) (maxFill rows)))

end Cleaning

/-! ## `data_processing/transformation.py` — `SkillsExtractor` -/

namespace Skills

open Py

/-- Word-boundary-delimited match of the (escaped, lowercased) phrase `p` at
the head of `s`, with `prev` the character just before `s` (if any):
`\b` holds at a point iff exactly one side of it is a `\w` character. -/
def matchesWordAt (p : List Char) (prev : Option Char) (s : List Char) : Bool :=
  p ≠ [] && p.isPrefixOf s &&
  ((match prev with | some c => isWordCh c | none => false) != isWordCh (p.headD ' ')) &&
  (isWordCh (p.getLastD ' ') != (match (s.drop p.length).head? with
                                 | some c => isWordCh c
                                 | none => false))

/-- `len(re.findall(rf'\b{re.escape(p)}\b', s))`: non-overlapping left-to-right
scan.  An empty phrase is counted as 0 matches (the vocabularies contain no
empty entries).  Fuel-driven structural recursion (a match consumes the
phrase, a miss consumes one character, so fuel `s.length` is exact). -/
def countWordAux (p : List Char) : ℕ → Option Char → List Char → ℕ
  | 0, _, _ => 0
  | _ + 1, _, [] => 0
  | fuel + 1, prev, c :: rest =>
    if matchesWordAt p prev (c :: rest) then
      1 + countWordAux p fuel (some (p.getLastD c)) ((c :: rest).drop p.length)
    else
      countWordAux p fuel (some c) rest

def countWordMatches (p s : String) : ℕ := countWordAux p.data s.data.length none s.data

/-- The external translation service: `detect`/`translate` calls that either
return a value or raise (`none`). -/
structure TranslatorM where
  detectLang : String → Option String
  translateVi : String → Option String

/-- `SkillsExtractor` configuration: `use_translator` flag and the (possibly
absent) translator object. -/
structure SkillsCfg where
  use_translator : Bool
  translator : Option TranslatorM

/-- `SkillsExtractor.translate_text` (transformation.py lines 81–104).
`text` is `none` for a `NaN`/`None` cell. -/
def translate_text (cfg : SkillsCfg) (text : Option String) : String :=
  match text with
  | none => ""
  | some s =>
    if s = "" then ""
    else if ¬ cfg.use_translator then s
    else match cfg.translator with
      | none => s
      | some tr =>
        match tr.detectLang s with
        | none => s                     -- detect raised; except falls through
        | some l =>
          if l = "vi" then
            match tr.translateVi s with
            | some t => t               -- translated text
            | none => s                 -- translate raised; except falls through
          else s

/-- `SkillsExtractor.extract_skills` (transformation.py lines 106–129).
`skill_dict` is the `{lowered: original}` dict as an insertion-ordered
association list. -/
def extract_skills (cfg : SkillsCfg) (text : Option String)
    (skill_dict : List (String × String)) : List String :=
  match text with
  | none => []
  | some s =>
    if s = "" then []
    else
      let processed := lower (translate_text cfg (some s))
      skill_dict.foldl
        (fun acc kv => acc ++ List.replicate (countWordMatches kv.1 processed) kv.2) []

end Skills

/-! ## `src/scraper.py` — `CareerVietScraper` -/

namespace Scraper

open Py

/-- A parsed HTML document (the BeautifulSoup tree): text nodes
(`NavigableString`) and elements with a tag name, a multi-valued `class`
attribute, other attributes, and children. -/
inductive Html where
  | text (s : String)
  | elem (tag : String) (classes : List String) (attrs : List (String × String)) (children : List Html)

mutual

/-- All descendant strings in document order (BS4 `.strings`). -/
def Html.strings : Html → List String
  | .text s => [s]
  | .elem _ _ _ cs => Html.stringsList cs

def Html.stringsList : List Html → List String
  | [] => []
  | c :: cs => Html.strings c ++ Html.stringsList cs

end

/-- BS4 `.text` / `get_text()`: concatenation of all strings. -/
def Html.textAll (h : Html) : String := String.join h.strings

mutual

/-- All descendants in document (pre-)order, excluding the node itself
(what BS4 `find`/`find_all`/`select` search). -/
def Html.descendants : Html → List Html
  | .text _ => []
  | .elem _ _ _ cs => Html.descendantsList cs

def Html.descendantsList : List Html → List Html
  | [] => []
  | c :: cs => c :: Html.descendants c ++ Html.descendantsList cs

end

/-- BS4 `.name`: `none` for text nodes. -/
def Html.tagName : Html → Option String
  | .text _ => none
  | .elem t _ _ _ => some t

def Html.isElem (h : Html) : Bool := h.tagName.isSome

def Html.hasClass (h : Html) (c : String) : Bool :=
  match h with
  | .elem _ cls _ _ => cls.contains c
  | .text _ => false

/-- BS4 `tag.get(key)`. -/
def Html.attr (h : Html) (k : String) : Option String :=
  match h with
  | .elem _ _ attrs _ => (attrs.find? (fun kv => kv.1 = k)).map (·.2)
  | .text _ => none

def Html.children : Html → List Html
  | .text _ => []
  | .elem _ _ _ cs => cs

/-- BS4 `.string`: the node's string if it is a text node or has exactly one
child whose `.string` is defined. -/
def Html.stringProp : Html → Option String
  | .text s => some s
  | .elem _ _ _ [c] => Html.stringProp c
  | .elem _ _ _ _ => none

/-- `element.get_text(separator=' ', strip=True)`: stripped descendant
strings, empties dropped, joined by the separator. -/
def getTextSepStrip (h : Html) : String :=
  String.intercalate " " ((h.strings.map strip).filter (fun s => s ≠ ""))

/-- `CareerVietScraper.extract_text_safely` (scraper.py lines 166–188):
`get_text(separator=' ', strip=True)` then `re.sub(r'\s+', ' ', ·).strip()`.
Its internal `try/except` has nothing left to catch in the embedding. -/
def extract_text_safely (h : Html) : String := strip (collapseWs (getTextSepStrip h))

/-- `soup.find(tag, class_=cls)`: first descendant with the tag whose class
list contains `cls`. -/
def findTagClass (h : Html) (tag cls : String) : Option Html :=
  h.descendants.find? (fun d => d.tagName = some tag && d.hasClass cls)

/-- `soup.find(tag)`. -/
def findTag (h : Html) (tag : String) : Option Html :=
  h.descendants.find? (fun d => d.tagName = some tag)

/-- `soup.find_all([tags...])`. -/
def findAllTags (h : Html) (tags : List String) : List Html :=
  h.descendants.filter (fun d => match d.tagName with
    | some t => tags.contains t
    | none => false)

/-- A simple CSS selector `tag.class` / `.class` / `tag#id`, the only forms
the source's selector literals use. -/
structure Selector where
  tag : Option String
  cls : Option String
  idName : Option String

def matchesSel (sel : Selector) (h : Html) : Bool :=
  h.isElem &&
  (match sel.tag with | some t => h.tagName = some t | none => true) &&
  (match sel.cls with | some c => h.hasClass c | none => true) &&
  (match sel.idName with | some i => h.attr "id" = some i | none => true)

/-- `soup.select_one(sel)`: first matching descendant in document order. -/
def selectOne (h : Html) (sel : Selector) : Option Html :=
  h.descendants.find? (matchesSel sel)

/-- A descendant together with its following siblings and its parent's
following siblings (the sibling context BS4 navigates with
`.next_sibling`). -/
structure NodeCtx where
  node : Html
  follow : List Html
  parentFollow : List Html

mutual

def ctxList (parentFollow : List Html) : List Html → List NodeCtx
  | [] => []
  | c :: cs => ⟨c, cs, parentFollow⟩ :: ctxChildren cs c ++ ctxList parentFollow cs

def ctxChildren (myFollow : List Html) : Html → List NodeCtx
  | .text _ => []
  | .elem _ _ _ cs => ctxList myFollow cs

end

/-- All descendants with sibling context, in document order. -/
def Html.ctxs (h : Html) : List NodeCtx := ctxChildren [] h

/-- `element.next` (the next parse element): first child, else the next
sibling taken from the supplied following-siblings list.  (When both are
absent BS4 would climb to an ancestor's sibling; the embedding returns
`none` there, the only approximation in this model.) -/
def docNext (v : Html) (followAfter : List Html) : Option Html :=
  match v.children.head? with
  | some c => some c
  | none => followAfter.head?

/-! ### `_extract_job_metadata` (scraper.py lines 245–350) -/

def naStr : String := "Not available"

/-- The four metadata fields, as accumulated by the cascade. -/
structure Meta4 where
  level : String
  jtype : String
  exper : String
  industry : String
deriving DecidableEq

def meta4Init : Meta4 := ⟨naStr, naStr, naStr, naStr⟩

def containsAny (s : String) (terms : List String) : Bool :=
  terms.any (fun t => containsSub s t)

def levelTerms1 : List String := ["cấp bậc", "chức vụ", "level", "position level"]
def typeTerms1 : List String := ["hình thức", "job type", "employment type"]
def expTerms1 : List String := ["kinh nghiệm", "experience"]
def indTerms1 : List String := ["ngành nghề", "industry", "field"]
def levelTerms2 : List String := ["cấp bậc", "chức vụ", "level"]
def typeTerms2 : List String := ["hình thức", "job type"]
def expTerms2 : List String := ["kinh nghiệm", "experience"]
def indTerms2 : List String := ["ngành nghề", "industry"]

def isColonWs (c : Char) : Bool := c = ':' ∨ isWs c

def metaDelims : List Char := ['•', '-', ',', '.']

/-- The regex `(?:kw₁|kw₂|…)[:\s]+(.*?)(?=$|[•\-\,\.])` attempted at the head
of `s`: alternatives in order, at least one `[:\s]` separator (greedy), then
a lazy capture up to the first delimiter or end of string. -/
def labelValueAt (kws : List (List Char)) (s : List Char) : Option (List Char) :=
  kws.foldl (fun acc kw =>
    match acc with
    | some v => some v
    | none =>
      if kw.isPrefixOf s then
        let after := s.drop kw.length
        let sep := after.takeWhile isColonWs
        if sep ≠ [] then
          some ((after.drop sep.length).takeWhile (fun c => ¬ metaDelims.contains c))
        else none
      else none) none

/-- `re.search` of the label/value pattern: leftmost matching position. -/
def labelValueSearch (kws : List (List Char)) : List Char → Option (List Char)
  | [] => none
  | s@(_ :: rest) =>
    match labelValueAt kws s with
    | some v => some v
    | none => labelValueSearch kws rest

def labelValue (kws : List String) (s : String) : Option String :=
  (labelValueSearch (kws.map String.data) s.data).map (fun l => strip ⟨l⟩)

/-- Method 1: one `li`/`div`/`span` item inside the job-info container
(scraper.py lines 269–294); four independent `if` blocks, each keeping the
old value when the regex fails. -/
def metaFromItem (st : Meta4) (item : Html) : Meta4 :=
  let t := lower (extract_text_safely item)
  let st := if containsAny t levelTerms1 then
      match labelValue levelTerms1 t with
      | some v => { st with level := v }
      | none => st
    else st
  let st := if containsAny t typeTerms1 then
      match labelValue typeTerms1 t with
      | some v => { st with jtype := v }
      | none => st
    else st
  let st := if containsAny t expTerms1 then
      match labelValue expTerms1 t with
      | some v => { st with exper := v }
      | none => st
    else st
  if containsAny t indTerms1 then
    match labelValue indTerms1 t with
    | some v => { st with industry := v }
    | none => st
  else st

def jobInfoSelectors : List Selector :=
  [⟨some "div", some "job-info", none⟩, ⟨some "ul", some "job-meta", none⟩,
   ⟨some "div", some "job-metadata", none⟩, ⟨some "div", some "job-overview", none⟩,
   ⟨some "ul", some "overview-items", none⟩, ⟨some "div", some "job-details", none⟩,
   ⟨some "div", some "meta-job-detail", none⟩, ⟨some "div", some "detail-box", none⟩,
   ⟨some "div", some "detail-content", none⟩, ⟨some "div", some "job-detail-content", none⟩]

/-- The `for selector in job_info_selectors: ... if job_info_element: break`
loop. -/
def firstSelectorHit (page : Html) (sels : List Selector) : Option Html :=
  sels.foldl (fun acc sel =>
    match acc with
    | some e => some e
    | none => selectOne page sel) none

/-- Method 2 row handling (scraper.py lines 299–314): two-cell rows,
`elif` chain, unconditional overwrite. -/
def metaFromRow (st : Meta4) (row : Html) : Meta4 :=
  match findAllTags row ["th", "td"] with
  | c0 :: c1 :: _ =>
    let header := lower (extract_text_safely c0)
    let value := extract_text_safely c1
    if containsAny header levelTerms2 then { st with level := value }
    else if containsAny header typeTerms2 then { st with jtype := value }
    else if containsAny header expTerms2 then { st with exper := value }
    else if containsAny header indTerms2 then { st with industry := value }
    else st
  | _ => st

/-- `for table in soup.find_all('table'): for row in table.find_all('tr')`. -/
def tableRows (page : Html) : List Html :=
  ((findAllTags page ["table"]).map (fun t => findAllTags t ["tr"])).flatten

def labelTags : List String := ["strong", "b", "label", "dt"]

/-- Method 3 (scraper.py lines 317–348): a `strong`/`b`/`label`/`dt` label
element; value from its next sibling (or the parent's next sibling when
that is absent or has no usable `.string`), `elif` chain filling only
fields still `"Not available"`. -/
def metaFromLabel (st : Meta4) (c : NodeCtx) : Meta4 :=
  let labelText := lower (extract_text_safely c.node)
  let usePar :=
    match c.follow.head? with
    | none => true
    | some v =>
      match v.stringProp with
      | none => true
      | some s => s = ""
  let valueElem := if usePar then c.parentFollow.head? else c.follow.head?
  let afterV := if usePar then c.parentFollow.drop 1 else c.follow.drop 1
  match valueElem with
  | none => st
  | some v =>
    let value := extract_text_safely v
    let value := if value = "" then
        match docNext v afterV with
        | some nx => extract_text_safely nx
        | none => value
      else value
    let value := stripChars ": \t\n-" (Py.replace value labelText "")
    if containsAny labelText levelTerms2 && st.level = naStr then { st with level := value }
    else if containsAny labelText typeTerms2 && st.jtype = naStr then { st with jtype := value }
    else if containsAny labelText expTerms2 && st.exper = naStr then { st with exper := value }
    else if containsAny labelText indTerms2 && st.industry = naStr then { st with industry := value }
    else st

/-- `CareerVietScraper._extract_job_metadata`: method 1, then methods 2 and 3
whenever any field is still unresolved. -/
def extract_job_metadata (page : Html) : Meta4 :=
  let m1 := match firstSelectorHit page jobInfoSelectors with
    | some el => (findAllTags el ["li", "div", "span"]).foldl metaFromItem meta4Init
    | none => meta4Init
  if m1.level = naStr ∨ m1.jtype = naStr ∨ m1.exper = naStr ∨ m1.industry = naStr then
    let m2 := (tableRows page).foldl metaFromRow m1
    ((page.ctxs).filter (fun c =>
        match c.node.tagName with
        | some t => labelTags.contains t
        | none => false)).foldl metaFromLabel m2
  else m1

/-! ### `_extract_job_description` (scraper.py lines 352–415) -/

/-- The selector loop of method 1: keep the last extracted text, stop early
when it exceeds `minLen` characters. -/
def trySelectors (page : Html) (minLen : ℕ) : List Selector → String → String
  | [], acc => acc
  | sel :: rest, acc =>
    match selectOne page sel with
    | some el =>
      let c := extract_text_safely el
      if minLen < c.length then c else trySelectors page minLen rest c
    | none => trySelectors page minLen rest acc

def headingTags : List String := ["h1", "h2", "h3", "h4", "strong", "b"]

def isHeadingTag (h : Html) : Bool :=
  match h.tagName with
  | some t => headingTags.contains t
  | none => false

/-- The `while current: ... current = current.next_sibling` walk: stop on a
heading-tagged sibling containing a stop term; collect nonempty text of
element siblings (text nodes have `name is None` and are skipped). -/
def collectSiblings (stopTerms : List String) : List Html → List String
  | [] => []
  | cur :: rest =>
    if isHeadingTag cur && containsAny (lower (extract_text_safely cur)) stopTerms then []
    else
      (if cur.isElem then
         (let c := extract_text_safely cur
          if c ≠ "" then [c] else [])
       else []) ++ collectSiblings stopTerms rest

/-- Method 2 of description/requirements extraction: first heading matching a
head term whose collected sibling section is nonempty. -/
def findHeadingSection (page : Html) (headTerms stopTerms : List String) : Option String :=
  (page.ctxs).foldl (fun acc c =>
    match acc with
    | some s => some s
    | none =>
      if isHeadingTag c.node && containsAny (lower (extract_text_safely c.node)) headTerms then
        let sec := collectSiblings stopTerms c.follow
        if ¬ sec.isEmpty then some (String.intercalate " " sec) else none
      else none) none

/-- Stable insertion for `paragraphs.sort(key=len, reverse=True)` (Python
sorts are stable; stable descending-by-key output is unique). -/
def insertByLenDesc (p : Html) : List Html → List Html
  | [] => [p]
  | q :: qs =>
    if (extract_text_safely p).length ≤ (extract_text_safely q).length then
      q :: insertByLenDesc p qs
    else p :: q :: qs

def stableSortByLenDesc (l : List Html) : List Html :=
  l.foldl (fun acc p => insertByLenDesc p acc) []

def descSelectors : List Selector :=
  [⟨some "div", some "job-description", none⟩, ⟨some "div", some "job-detail-content", none⟩,
   ⟨some "div", some "content-tab", none⟩, ⟨some "div", none, some "job-description"⟩,
   ⟨none, some "job-content", none⟩, ⟨none, some "detail-content", none⟩,
   ⟨none, some "job-detail", none⟩, ⟨some "div", some "description", none⟩,
   ⟨some "div", some "job-info", none⟩, ⟨none, some "job-overview", none⟩,
   ⟨some "div", some "job-data", none⟩, ⟨none, some "job-details-content", none⟩,
   ⟨some "article", some "job-content", none⟩, ⟨some "section", some "job-detail", none⟩]

def descHeadTerms : List String :=
  ["mô tả công việc", "job description", "about the job", "job brief", "job details"]

def descStopTerms : List String :=
  ["yêu cầu", "requirements", "qualifications", "benefits", "quyền lợi"]

def descSentinel : String := "Description unavailable or could not be extracted properly"

/-- Methods 1–3 of `_extract_job_description`, before the final cleanup. -/
def rawJobDescription (page : Html) : String :=
  let d1 := trySelectors page 100 descSelectors ""
  let d2 := if d1 = "" ∨ d1.length < 100 then
      match findHeadingSection page descHeadTerms descStopTerms with
      | some s => s
      | none => d1
    else d1
  if d2 = "" ∨ d2.length < 100 then
    let paras := (findAllTags page ["p", "div", "section"]).filter
      (fun p => 50 < (extract_text_safely p).length)
    if ¬ paras.isEmpty then
      String.intercalate "\n" (((stableSortByLenDesc paras).take 3).map extract_text_safely)
    else d2
  else d2

/-- The final cleanup shared by the two extractors: collapse whitespace,
strip, and replace anything with fewer than 20 alphabetic characters by the
fallback sentinel. -/
def sanitizeMin20 (fallback s : String) : String :=
  if strip (collapseWs s) = "" ∨ alphaCount (strip (collapseWs s)) < 20 then fallback
  else strip (collapseWs s)

/-- `CareerVietScraper._extract_job_description`. -/
def extract_job_description (page : Html) : String :=
  sanitizeMin20 descSentinel (rawJobDescription page)

/-! ### `_extract_job_requirements` (scraper.py lines 417–495) -/

def reqSelectors : List Selector :=
  [⟨some "div", some "job-requirements", none⟩, ⟨some "div", none, some "job-requirements"⟩,
   ⟨none, some "requirements", none⟩, ⟨some "div", some "qualifications", none⟩,
   ⟨some "div", some "candidate-profile", none⟩, ⟨none, some "required-skills", none⟩,
   ⟨none, none, some "qualifications"⟩, ⟨some "div", some "skill-requirements", none⟩,
   ⟨none, some "candidate-requirements", none⟩]

/-- An ASCII apostrophe (kept out of string literals). -/
def apos : String := (Char.ofNat 39).toString

def reqHeadTerms : List String :=
  ["yêu cầu", "requirements", "qualifications", "skills", "experience required",
   "what we" ++ apos ++ "re looking for", "candidate requirements", "kỹ năng"]

def reqStopTerms : List String := ["benefits", "quyền lợi", "how to apply", "nộp hồ sơ"]

def reqStartTerms1 : List String :=
  ["yêu cầu", "requirements", "qualifications", "what we" ++ apos ++ "re looking for"]

def reqStartTerms2 : List String := ["kỹ năng", "skills required", "experience needed"]

def reqEndTerms : List String := ["quyền lợi", "benefits", "what we offer", "how to apply"]

/-- The lazy capture `(.*?)(?:end₁|…|$)` with `re.DOTALL`: everything up to
the earliest end-term occurrence (or end of string). -/
def captureUntil (ends : List (List Char)) : List Char → List Char
  | [] => []
  | s@(c :: rest) =>
    if ends.any (fun e => e.isPrefixOf s) then []
    else c :: captureUntil ends rest

/-- The requirements pattern `(?:start₁|…)[\s\:]+(.*?)(?:end₁|…|$)` attempted
at the head of `s`. -/
def reqPatternAt (starts ends : List (List Char)) (s : List Char) : Option (List Char) :=
  starts.foldl (fun acc kw =>
    match acc with
    | some v => some v
    | none =>
      if kw.isPrefixOf s then
        let after := s.drop kw.length
        let sep := after.takeWhile isColonWs
        if sep ≠ [] then some (captureUntil ends (after.drop sep.length))
        else none
      else none) none

def reqPatternSearch (starts ends : List (List Char)) : List Char → Option (List Char)
  | [] => none
  | s@(_ :: rest) =>
    match reqPatternAt starts ends s with
    | some v => some v
    | none => reqPatternSearch starts ends rest

/-- One `for pattern in patterns` iteration: match, strip the capture, accept
only if it contains a bullet-like character. -/
def tryReqPattern (starts ends : List String) (dl : String) : Option String :=
  (reqPatternSearch (starts.map String.data) (ends.map String.data) dl.data).bind (fun cap =>
    let t := strip ⟨cap⟩
    if t.data.any (fun c => c = '•' ∨ c = '-' ∨ c = '*') then some t else none)

/-- Method 3: extract a requirements section out of the description text. -/
def extractReqFromDesc (desc : String) : String :=
  let dl := lower desc
  match tryReqPattern reqStartTerms1 reqEndTerms dl with
  | some t => t
  | none =>
    match tryReqPattern reqStartTerms2 reqEndTerms dl with
    | some t => t
    | none => ""

def reqSentinelIncluded : String := "Requirements included in job description"

def reqSentinelUnavailable : String := "Requirements unavailable or could not be extracted properly"

/-- The final cleanup of `_extract_job_requirements` (scraper.py lines
486–493): sanity floor with a description-dependent sentinel. -/
def reqFinal (desc r3 : String) : String :=
  if strip (collapseWs r3) = "" ∨ alphaCount (strip (collapseWs r3)) < 20 then
    (if containsSub (lower desc) "yêu cầu:" ∨ containsSub (lower desc) "requirements:" then
      reqSentinelIncluded
    else reqSentinelUnavailable)
  else strip (collapseWs r3)

/-- `CareerVietScraper._extract_job_requirements`. -/
def extract_job_requirements (page : Html) (desc : String) : String :=
  let r1 := trySelectors page 50 reqSelectors ""
  let r2 := if r1 = "" ∨ r1.length < 50 then
      match findHeadingSection page reqHeadTerms reqStopTerms with
      | some s => s
      | none => r1
    else r1
  let r3 := if r2 = "" ∧ desc ≠ "" then extractReqFromDesc desc else r2
  reqFinal desc r3

/-! ### `get_job_details` and `process_job` -/

/-- The six-key detail dictionary returned by `get_job_details`. -/
structure JobDetails where
  jobDescription : String
  jobRequirements : String
  jobLevel : String
  jobType : String
  experience : String
  industry : String
deriving DecidableEq

/-- `CareerVietScraper._get_empty_job_details` (scraper.py lines 230–243). -/
def empty_job_details (msg : String) : JobDetails :=
  ⟨msg, msg, naStr, naStr, naStr, naStr⟩

/-- `CareerVietScraper.get_job_details` (scraper.py lines 190–228).  The
`get_soup` call is modelled by its result `fetched` (`none` = all retries
exhausted).  The surrounding `try/except` has nothing left to catch: every
fallible access in the body is guarded, so the handler producing
`_get_empty_job_details(error=...)` is unreachable. -/
def get_job_details (fetched : Option Html) : JobDetails :=
  match fetched with
  | none => empty_job_details "Could not load job details"
  | some page =>
    let m := extract_job_metadata page
    let d := extract_job_description page
    let r := extract_job_requirements page d
    ⟨d, r, m.level, m.jtype, m.exper, m.industry⟩

/-- A raw job record as assembled by `process_job` (scraper.py lines 551–566). -/
structure JobRecord where
  title : String
  company : String
  location : String
  salary : String
  date : String
  jobLink : String
  expireDate : String
  welfare : List String
  jobDescription : String
  jobRequirements : String
  jobLevel : String
  jobType : String
  experience : String
  industry : String
deriving DecidableEq

/-- The `for li in time_class.find_all('li'): if marker in li.text: ... break`
loops (scraper.py lines 529–540). -/
def timeOfMarker (lis : List Html) (marker fallback : String) : String :=
  match lis.find? (fun li => containsSub li.textAll marker) with
  | some li =>
    match findTag li "time" with
    | some t => strip t.textAll
    | none => fallback
  | none => fallback

/-- `CareerVietScraper.process_job` (scraper.py lines 497–571).  `fetch`
models the nested `get_soup` call made by `get_job_details` on the detail
link.  The `try/except` wrapping the body returns `None` on any exception;
the three reachable raise points are made explicit:
* no `div.title` → `title_tag.text` raises `AttributeError`;
* a `a.job_link` tag without `href` → `link` is `None` and
  `link.startswith('/')` raises `AttributeError`;
* `link == "Link not found"` → `job_details` is `{}` and
  `job_details["Job Description"]` raises `KeyError`. -/
def process_job (fetch : String → Option Html) (job : Html) : Option JobRecord :=
  match findTagClass job "div" "title" with
  | none => none
  | some titleTag =>
    let title := Py.replace (Py.replace (Py.replace (strip titleTag.textAll) "\n" "") "(Mới)" "") "  " ""
    -- `title_tag` is `some` here, so the nested conditional's "Title not found" arm is dead
    let company := match findTagClass job "a" "company-name" with
      | some c => strip c.textAll
      | none => "Company not found"
    match (match findTagClass job "a" "job_link" with
           | some lt => lt.attr "href"
           | none => some "Link not found") with
    | none => none
    | some link0 =>
      let link := if startsWith link0 "/" then "https://careerviet.vn" ++ link0 else link0
      let location := match findTagClass job "div" "location" with
        | some l => strip l.textAll
        | none => "Location not found"
      let salary := match findTagClass job "div" "salary" with
        | some s => strip (Py.replace s.textAll "Lương:" "")
        | none => "Salary not found"
      let times := match findTagClass job "div" "time" with
        | some tc =>
          let lis := findAllTags tc ["li"]
          (timeOfMarker lis "Cập nhật" "Update time not found",
           timeOfMarker lis "Hạn nộp" "Expire date not found")
        | none => ("Update time not found", "Expire date not found")
      let welfare := match findTagClass job "ul" "welfare" with
        | some ul => (findAllTags ul ["li"]).map (fun li => strip li.textAll)
        | none => ([] : List String)
      if link ≠ "Link not found" then
        let jd := get_job_details (fetch link)
        some ⟨title, company, location, salary, times.1, link, times.2, welfare,
              jd.jobDescription, jd.jobRequirements, jd.jobLevel, jd.jobType,
              jd.experience, jd.industry⟩
      else none

/-- The fields of a scraped job record that the orchestrator's merge loop and
validity pass inspect (`Job Link` for dedup; description/requirements for
the final check).  In the source these are always strings (built by
`process_job`), so the `isinstance(..., str)` test always passes. -/
structure ScrapedJob where
  jobLink : String
  jobDescription : String
  jobRequirements : String
deriving DecidableEq

/-- One iteration of the per-job merge (scraper.py lines 713–718): a job is
appended iff its link is truthy and not yet in `processed_job_links`
(which always equals the set of links of `all_jobs`). -/
def addJob (acc : List ScrapedJob) (j : ScrapedJob) : List ScrapedJob :=
  if j.jobLink ≠ "" ∧ acc.all (fun r => r.jobLink ≠ j.jobLink) then acc ++ [j] else acc

/-- The `as_completed` loop of `scrape` (scraper.py lines 703–729):
`pageResults` lists each completed page's jobs in completion order; after
merging a page the loop breaks once `len(all_jobs) >= max_jobs`
(remaining futures are cancelled / their results discarded). -/
def mergeCompleted (max_jobs : ℕ) : List ScrapedJob → List (List ScrapedJob) → List ScrapedJob
  | acc, [] => acc
  | acc, page :: rest =>
    let acc' := page.foldl addJob acc
    if max_jobs ≤ acc'.length then acc' else mergeCompleted max_jobs acc' rest

/-- The final validity check (scraper.py lines 747–750). -/
def verifyJob (j : ScrapedJob) : Bool :=
  j.jobDescription ≠ "" ∧ j.jobRequirements ≠ ""

/-- The collection returned by `scrape` (scraper.py lines 744–758): the merged
list truncated to `max_jobs` (`all_jobs[:self.max_jobs]`), keeping only
records passing the validity check. -/
def scrapeResult (max_jobs : ℕ) (pageResults : List (List ScrapedJob)) : List ScrapedJob :=
  ((mergeCompleted max_jobs [] pageResults).take max_jobs).filter verifyJob

end Scraper

/-! ## Concrete fixtures used by witnesses and counterexamples -/

namespace Fixtures

open Scraper

def jobA : ScrapedJob := ⟨"https://careerviet.vn/a.html", "desc a", "req a"⟩

def jobB : ScrapedJob := ⟨"https://careerviet.vn/b.html", "desc b", "req b"⟩

/-- A listing element with a link but no `div.title`. -/
def jobNoTitle : Html :=
  .elem "div" ["job-item"] []
    [.elem "a" ["job_link"] [("href", "/x.html")] [.text "link"]]

/-- A listing element with a title but no `a.job_link`. -/
def jobNoLink : Html :=
  .elem "div" ["job-item"] [] [.elem "div" ["title"] [] [.text "Dev"]]

/-- A listing element with only a title and a link. -/
def jobMinimal : Html :=
  .elem "div" ["job-item"] []
    [.elem "div" ["title"] [] [.text "Dev"],
     .elem "a" ["job_link"] [("href", "/x.html")] [.text "link"]]

/-- A small vocabulary `{lowered: original}` dict. -/
def sqlVocab : List (String × String) := [("sql", "SQL"), ("sqlite", "SQLite")]

/-- A `SkillsExtractor` with translation disabled. -/
def noTranslator : Skills.SkillsCfg := ⟨false, none⟩

end Fixtures

/-! # Theorems -/

open Py Cleaning Skills Scraper Fixtures

/-! ## C10 — skill-tagging entry points accept missing text -/

/-- **C10.** For every vocabulary dictionary and extractor configuration,
`extract_skills` applied to a null (`NaN`/`None`) or empty input text
returns the empty list without raising, and `translate_text` applied to
such input returns the empty string. -/
theorem extract_skills_null_or_empty (cfg : SkillsCfg) (skill_dict : List (String × String)) :
    extract_skills cfg none skill_dict = [] ∧
    extract_skills cfg (some "") skill_dict = [] ∧
    translate_text cfg none = "" ∧
    translate_text cfg (some "") = "" :=
  ⟨rfl, rfl, rfl, rfl⟩

/-! ## C2 — totality of detail extraction -/

theorem sanitizeMin20_cases (fb s : String) :
    sanitizeMin20 fb s = fb ∨ 20 ≤ alphaCount (sanitizeMin20 fb s) := by
  by_cases h : strip (collapseWs s) = "" ∨ alphaCount (strip (collapseWs s)) < 20
  · exact Or.inl (by unfold sanitizeMin20; exact if_pos h)
  · right
    unfold sanitizeMin20
    rw [if_neg h]
    push_neg at h
    omega

theorem reqFinal_cases (desc r : String) :
    reqFinal desc r = reqSentinelIncluded ∨ reqFinal desc r = reqSentinelUnavailable ∨
      20 ≤ alphaCount (reqFinal desc r) := by
  unfold reqFinal
  by_cases h : strip (collapseWs r) = "" ∨ alphaCount (strip (collapseWs r)) < 20
  · rw [if_pos h]
    by_cases h2 : containsSub (lower desc) "yêu cầu:" = true ∨ containsSub (lower desc) "requirements:" = true
    · rw [if_pos h2]
      exact Or.inl rfl
    · rw [if_neg h2]
      exact Or.inr (Or.inl rfl)
  · rw [if_neg h]
    push_neg at h
    exact Or.inr (Or.inr (by omega))

theorem extract_job_description_cases (page : Html) :
    extract_job_description page = descSentinel ∨
      20 ≤ alphaCount (extract_job_description page) := by
  unfold extract_job_description
  exact sanitizeMin20_cases _ _

theorem extract_job_requirements_cases (page : Html) (desc : String) :
    extract_job_requirements page desc = reqSentinelIncluded ∨
      extract_job_requirements page desc = reqSentinelUnavailable ∨
      20 ≤ alphaCount (extract_job_requirements page desc) := by
  unfold extract_job_requirements
  exact reqFinal_cases _ _

theorem get_job_details_some (page : Html) :
    get_job_details (some page) =
      ⟨extract_job_description page,
       extract_job_requirements page (extract_job_description page),
       (extract_job_metadata page).level, (extract_job_metadata page).jtype,
       (extract_job_metadata page).exper, (extract_job_metadata page).industry⟩ := rfl

/-- **C2.** For every fetch outcome — including a failed fetch (`none`) and
an arbitrary (empty/malformed) page — `get_job_details` returns the full
six-key dictionary of strings (by the type of `JobDetails`; the translated
body has no unguarded failure point, so it never raises): on a failed fetch
every field is an explicit sentinel, and in all cases the description and
requirements fields are either an explicit sentinel or a parsed value with
at least 20 alphabetic characters — never null, never empty. -/
theorem get_job_details_total (fetched : Option Html) :
    (fetched = none → get_job_details fetched = empty_job_details "Could not load job details") ∧
    (get_job_details fetched).jobDescription ≠ "" ∧
    ((get_job_details fetched).jobDescription = descSentinel ∨
     (get_job_details fetched).jobDescription = "Could not load job details" ∨
     20 ≤ alphaCount (get_job_details fetched).jobDescription) ∧
    ((get_job_details fetched).jobRequirements = reqSentinelIncluded ∨
     (get_job_details fetched).jobRequirements = reqSentinelUnavailable ∨
     (get_job_details fetched).jobRequirements = "Could not load job details" ∨
     20 ≤ alphaCount (get_job_details fetched).jobRequirements) := by
  cases fetched with
  | none =>
    refine ⟨fun _ => rfl, by decide, Or.inr (Or.inl rfl), Or.inr (Or.inr (Or.inl rfl))⟩
  | some page =>
    simp only [get_job_details_some]
    refine ⟨fun h => Option.noConfusion h, ?_, ?_, ?_⟩
    · rcases extract_job_description_cases page with h | h
      · rw [h]; decide
      · intro contra
        rw [contra] at h
        exact absurd h (by decide)
    · rcases extract_job_description_cases page with h | h
      · exact Or.inl h
      · exact Or.inr (Or.inr h)
    · rcases extract_job_requirements_cases page (extract_job_description page) with h | h | h
      · exact Or.inl h
      · exact Or.inr (Or.inl h)
      · exact Or.inr (Or.inr (Or.inr h))

/-- Witness for C2: a failed fetch produces exactly the sentinel dictionary. -/
theorem get_job_details_total_witness :
    get_job_details none = empty_job_details "Could not load job details" :=
  (get_job_details_total none).1 rfl

/-! ## C1 — the scrape merge keeps one record per link, the first seen -/

/-- The merge loop processes some prefix of the completed pages (it breaks
once the count reaches `max_jobs`), record by record. -/
theorem mergeCompleted_eq_prefix (max_jobs : ℕ) :
    ∀ (pages : List (List ScrapedJob)) (acc : List ScrapedJob),
      ∃ k, mergeCompleted max_jobs acc pages = ((pages.take k).flatten).foldl addJob acc := by
  intro pages
  induction pages with
  | nil => intro acc; exact ⟨0, rfl⟩
  | cons page rest ih =>
    intro acc
    by_cases h : max_jobs ≤ (page.foldl addJob acc).length
    · refine ⟨1, ?_⟩
      simp only [mergeCompleted, if_pos h, List.take_succ_cons, List.take_zero,
        List.flatten_cons, List.flatten_nil, List.append_nil]
    · rcases ih (page.foldl addJob acc) with ⟨k, hk⟩
      refine ⟨k + 1, ?_⟩
      simp only [mergeCompleted, if_neg h, hk, List.take_succ_cons, List.flatten_cons,
        List.foldl_append]

/-- The running invariant of the record-level merge: `acc` holds exactly the
first-seen record for every nonempty link of the processed stream `hist`,
with pairwise-distinct links. -/
theorem foldl_addJob_step (hist acc : List ScrapedJob) (j0 : ScrapedJob)
    (h1 : (acc.map (fun r => r.jobLink)).Nodup)
    (h2 : ∀ j ∈ acc, j.jobLink ≠ "" ∧
        hist.find? (fun r => r.jobLink == j.jobLink) = some j)
    (h3 : ∀ r ∈ hist, r.jobLink ≠ "" → ∃ j ∈ acc, j.jobLink = r.jobLink) :
    ((addJob acc j0).map (fun r => r.jobLink)).Nodup ∧
    (∀ j ∈ addJob acc j0, j.jobLink ≠ "" ∧
        (hist ++ [j0]).find? (fun r => r.jobLink == j.jobLink) = some j) ∧
    (∀ r ∈ hist ++ [j0], r.jobLink ≠ "" → ∃ j ∈ addJob acc j0, j.jobLink = r.jobLink) := by
  unfold addJob
  by_cases hc : j0.jobLink ≠ "" ∧ acc.all (fun r => r.jobLink ≠ j0.jobLink)
  · rw [if_pos hc]
    have hnotin : ∀ r ∈ acc, r.jobLink ≠ j0.jobLink := by
      intro r hr
      have := List.all_eq_true.mp hc.2 r hr
      simpa using this
    have hfind0 : hist.find? (fun r => r.jobLink == j0.jobLink) = none := by
      rw [List.find?_eq_none]
      intro r hr hbeq
      have hre : r.jobLink = j0.jobLink := by simpa using hbeq
      rcases h3 r hr (by rw [hre]; exact hc.1) with ⟨j, hj, hje⟩
      exact hnotin j hj (by rw [hje, hre])
    refine ⟨?_, ?_, ?_⟩
    · rw [List.map_append]
      refine (List.nodup_append).mpr ⟨h1, List.nodup_singleton _, ?_⟩
      intro x hx
      rcases List.mem_map.mp hx with ⟨r, hr, hre⟩
      simp only [List.map_cons, List.map_nil, List.mem_singleton]
      intro hxe
      exact hnotin r hr (by rw [hre, hxe])
    · intro j hj
      rcases List.mem_append.mp hj with hj' | hj'
      · refine ⟨(h2 j hj').1, ?_⟩
        rw [List.find?_append, (h2 j hj').2, Option.or_some]
      · have hj0 : j = j0 := by simpa using hj'
        subst hj0
        refine ⟨hc.1, ?_⟩
        rw [List.find?_append, hfind0, Option.none_or]
        simp [List.find?]
    · intro r hr hrne
      rcases List.mem_append.mp hr with hr' | hr'
      · rcases h3 r hr' hrne with ⟨j, hj, hje⟩
        exact ⟨j, List.mem_append_left _ hj, hje⟩
      · have hr0 : r = j0 := by simpa using hr'
        subst hr0
        exact ⟨r, List.mem_append_right _ (by simp), rfl⟩
  · rw [if_neg hc]
    refine ⟨h1, ?_, ?_⟩
    · intro j hj
      refine ⟨(h2 j hj).1, ?_⟩
      rw [List.find?_append, (h2 j hj).2, Option.or_some]
    · intro r hr hrne
      rcases List.mem_append.mp hr with hr' | hr'
      · exact h3 r hr' hrne
      · have hr0 : r = j0 := by simpa using hr'
        subst hr0
        rcases Decidable.not_and_iff_or_not.mp hc with hbad | hbad
        · exact absurd hrne (by simpa using hbad)
        · have : ∃ j ∈ acc, ¬ (j.jobLink ≠ r.jobLink) := by
            by_contra hall
            push_neg at hall
            exact hbad (List.all_eq_true.mpr (fun j hj => by
              simpa using hall j hj))
          rcases this with ⟨j, hj, hje⟩
          exact ⟨j, hj, by simpa using hje⟩

theorem foldl_addJob_invariant (stream : List ScrapedJob) :
    ∀ (hist acc : List ScrapedJob),
      ((acc.map (fun r => r.jobLink)).Nodup ∧
       (∀ j ∈ acc, j.jobLink ≠ "" ∧
          hist.find? (fun r => r.jobLink == j.jobLink) = some j) ∧
       (∀ r ∈ hist, r.jobLink ≠ "" → ∃ j ∈ acc, j.jobLink = r.jobLink)) →
      (((stream.foldl addJob acc).map (fun r => r.jobLink)).Nodup ∧
       (∀ j ∈ stream.foldl addJob acc, j.jobLink ≠ "" ∧
          (hist ++ stream).find? (fun r => r.jobLink == j.jobLink) = some j) ∧
       (∀ r ∈ hist ++ stream, r.jobLink ≠ "" →
          ∃ j ∈ stream.foldl addJob acc, j.jobLink = r.jobLink)) := by
  induction stream with
  | nil =>
    intro hist acc h
    simpa using h
  | cons j0 rest ih =>
    intro hist acc h
    have hstep := foldl_addJob_step hist acc j0 h.1 h.2.1 h.2.2
    have := ih (hist ++ [j0]) (addJob acc j0) hstep
    rw [List.append_assoc] at this
    simpa using this

/-- **C1.** No two records retained by `scrape` share a `Job Link`, and each
retained record is the *first* record with its link in the merged stream of
page results (completion order): `find?` on the flattened stream returns
exactly the retained record. -/
theorem scrape_dedup_first (max_jobs : ℕ) (pages : List (List ScrapedJob)) :
    ((scrapeResult max_jobs pages).map (fun r => r.jobLink)).Nodup ∧
    ∀ j ∈ scrapeResult max_jobs pages,
      pages.flatten.find? (fun r => r.jobLink == j.jobLink) = some j := by
  rcases mergeCompleted_eq_prefix max_jobs pages [] with ⟨k, hk⟩
  have hinv := foldl_addJob_invariant ((pages.take k).flatten) [] []
    ⟨by simp, by simp, by simp⟩
  rw [← hk] at hinv
  obtain ⟨hnd, hfirst, -⟩ := hinv
  have hsub : (scrapeResult max_jobs pages).Sublist (mergeCompleted max_jobs [] pages) :=
    (List.filter_sublist _).trans (List.take_sublist _ _)
  constructor
  · exact ((hsub.map (fun r => r.jobLink)).nodup hnd : _)
  · intro j hj
    have hjm : j ∈ mergeCompleted max_jobs [] pages := hsub.subset hj
    have h2 := (hfirst j hjm).2
    rw [List.nil_append] at h2
    have hsplit : pages.flatten = (pages.take k).flatten ++ (pages.drop k).flatten := by
      rw [← List.flatten_append, List.take_append_drop]
    rw [hsplit, List.find?_append, h2, Option.or_some]

/-- Witness for C1: with a duplicated link across two pages, the second
page's copy is dropped and each retained record is the first-seen one. -/
theorem scrape_dedup_first_witness :
    (([[jobA], [jobA, jobB]] : List (List ScrapedJob)).flatten.find?
        (fun r => r.jobLink == jobB.jobLink)) = some jobB ∧
    ((scrapeResult 10 [[jobA], [jobA, jobB]]).map (fun r => r.jobLink)).Nodup :=
  ⟨(scrape_dedup_first 10 [[jobA], [jobA, jobB]]).2 jobB (by decide),
   (scrape_dedup_first 10 [[jobA], [jobA, jobB]]).1⟩

/-! ## C7 — per-listing extraction and missing sub-elements -/

/-- **C7 (counterexample).** A listing element with no `div.title` (its
`title_tag.text` raises `AttributeError`), and one with no `a.job_link`
(the empty details dict raises `KeyError`), both make `process_job` return
`None` — the listing yields *no* record, instead of degrading to sentinel
strings. -/
theorem process_job_missing_title_cex :
    process_job (fun _ => none) jobNoTitle = none ∧
    process_job (fun _ => none) jobNoLink = none := by
  decide

theorem absolutized_ne_link_not_found (href : String) (hNe : href ≠ "Link not found") :
    (if startsWith href "/" then "https://careerviet.vn" ++ href else href)
      ≠ "Link not found" := by
  by_cases hs : startsWith href "/" = true
  · rw [if_pos hs]
    intro heq
    have hlen := congrArg String.length heq
    rw [String.length_append] at hlen
    have h21 : ("https://careerviet.vn" : String).length = 21 := rfl
    have h14 : ("Link not found" : String).length = 14 := rfl
    omega
  · rw [if_neg hs]
    exact hNe

/-- **C7 (amended).** For every listing element that has a title sub-element
and a link sub-element carrying an `href` (other than the sentinel text
itself), `process_job` always yields a record, and the remaining missing
sub-elements — company, location, salary, times, welfare — degrade to their
explicit sentinel values instead of raising.  (A listing missing the title
or the link yields no record; see the counterexample.) -/
theorem process_job_field_sentinels (fetch : String → Option Html) (job : Html)
    (tt lt : Html) (href : String)
    (hTitle : findTagClass job "div" "title" = some tt)
    (hLink : findTagClass job "a" "job_link" = some lt)
    (hHref : lt.attr "href" = some href)
    (hNe : href ≠ "Link not found") :
    ∃ rec, process_job fetch job = some rec ∧
      (findTagClass job "a" "company-name" = none → rec.company = "Company not found") ∧
      (findTagClass job "div" "location" = none → rec.location = "Location not found") ∧
      (findTagClass job "div" "salary" = none → rec.salary = "Salary not found") ∧
      (findTagClass job "div" "time" = none →
        rec.date = "Update time not found" ∧ rec.expireDate = "Expire date not found") ∧
      (findTagClass job "ul" "welfare" = none → rec.welfare = []) := by
  simp only [process_job, hTitle, hLink, hHref]
  rw [if_pos (absolutized_ne_link_not_found href hNe)]
  refine ⟨_, rfl, ?_, ?_, ?_, ?_, ?_⟩
  · intro h; simp [h]
  · intro h; simp [h]
  · intro h; simp [h]
  · intro h; simp [h]
  · intro h; simp [h]

/-- Witness for C7's amended claim: a listing with only a title and a link
still yields a record, with every other field a sentinel. -/
theorem process_job_field_sentinels_witness :
    ∃ rec, process_job (fun _ => none) jobMinimal = some rec ∧
      rec.company = "Company not found" ∧
      rec.location = "Location not found" ∧
      rec.salary = "Salary not found" ∧
      rec.date = "Update time not found" ∧
      rec.expireDate = "Expire date not found" ∧
      rec.welfare = [] := by
  rcases process_job_field_sentinels (fun _ => none) jobMinimal
      (.elem "div" ["title"] [] [.text "Dev"])
      (.elem "a" ["job_link"] [("href", "/x.html")] [.text "link"]) "/x.html"
      rfl rfl rfl (by decide) with ⟨rec, h0, h1, h2, h3, h4, h5⟩
  exact ⟨rec, h0, h1 rfl, h2 rfl, h3 rfl, (h4 rfl).1, (h4 rfl).2, h5 rfl⟩

/-! ## C6 — whole-word, case-insensitive skill matching -/

theorem extract_count_foldl (p v : String) :
    ∀ (dict : List (String × String)) (acc : List String),
      (dict.foldl (fun acc kv => acc ++ List.replicate (countWordMatches kv.1 p) kv.2) acc).count v
        = acc.count v +
          (dict.map (fun kv => if kv.2 = v then countWordMatches kv.1 p else 0)).sum := by
  intro dict
  induction dict with
  | nil => intro acc; simp
  | cons kv rest ih =>
    intro acc
    simp only [List.foldl_cons, ih, List.map_cons, List.sum_cons, List.count_append]
    rw [List.count_replicate]
    by_cases hv : kv.2 = v
    · simp only [hv, if_pos rfl, beq_self_eq_true, if_true]
      omega
    · rw [if_neg (by simpa using hv), if_neg hv]
      omega

/-- In a lowered vocabulary with distinct keys that contains the entry
`("sql", "SQL")`, that entry is the only one whose canonical name is
`"SQL"`, so the per-entry match counts sum to the matches of `"sql"`. -/
theorem sum_single_sql (p : String) :
    ∀ (vocab : List (String × String)),
      (vocab.map Prod.fst).Nodup →
      (∀ q ∈ vocab, q.1 = lower q.2) →
      ("sql", "SQL") ∈ vocab →
      (vocab.map (fun kv => if kv.2 = "SQL" then countWordMatches kv.1 p else 0)).sum
        = countWordMatches "sql" p := by
  intro vocab
  induction vocab with
  | nil => intro _ _ hmem; cases hmem
  | cons kv rest ih =>
    intro hnodup hlow hmem
    have hnodup' : kv.1 ∉ rest.map Prod.fst ∧ (rest.map Prod.fst).Nodup := by
      rw [List.map_cons] at hnodup
      exact List.nodup_cons.mp hnodup
    simp only [List.map_cons, List.sum_cons]
    rcases List.mem_cons.mp hmem with heq | hmem'
    · have hrest0 : (rest.map (fun kv => if kv.2 = "SQL" then countWordMatches kv.1 p else 0)).sum = 0 := by
        apply List.sum_eq_zero
        intro x hx
        rcases List.mem_map.mp hx with ⟨q, hq, hxeq⟩
        have hq2 : q.2 ≠ "SQL" := by
          intro h2
          have hq1 : q.1 = "sql" := by
            rw [hlow q (List.mem_cons_of_mem _ hq), h2]
            decide
          have hmemf : q.1 ∈ rest.map Prod.fst := List.mem_map.mpr ⟨q, hq, rfl⟩
          rw [hq1, ← show kv.1 = "sql" from by rw [← heq]] at hmemf
          exact hnodup'.1 hmemf
        rw [← hxeq, if_neg hq2]
      rw [← heq, hrest0]
      simp
    · have hkv2 : kv.2 ≠ "SQL" := by
        intro h2
        have h1 : kv.1 = "sql" := by
          rw [hlow kv (List.mem_cons_self _ _), h2]
          decide
        have : "sql" ∈ rest.map Prod.fst :=
          List.mem_map.mpr ⟨("sql", "SQL"), hmem', rfl⟩
        exact hnodup'.1 (h1 ▸ this)
      rw [if_neg hkv2,
          ih hnodup'.2 (fun q hq => hlow q (List.mem_cons_of_mem _ hq)) hmem']
      omega

/-- With translation disabled, `extract_skills` on a non-null text counts,
for each vocabulary entry, the whole-word occurrences of its lowered key in
the lowered text. -/
theorem extract_skills_count (cfg : SkillsCfg) (hcfg : cfg.use_translator = false)
    (t : String) (vocab : List (String × String)) (v : String) :
    (extract_skills cfg (some t) vocab).count v
      = (vocab.map (fun kv => if kv.2 = v then countWordMatches kv.1 (lower t) else 0)).sum := by
  by_cases ht : t = ""
  · subst ht
    show (extract_skills cfg (some "") vocab).count v = _
    rw [show extract_skills cfg (some "") vocab = [] from rfl]
    have : ∀ kv ∈ vocab, (if kv.2 = v then countWordMatches kv.1 (lower "") else 0) = 0 := by
      intro kv _
      have hz : countWordMatches kv.1 (lower "") = 0 := rfl
      by_cases hkv : kv.2 = v
      · rw [if_pos hkv, hz]
      · rw [if_neg hkv]
    rw [List.sum_eq_zero]
    · rfl
    · intro x hx
      rcases List.mem_map.mp hx with ⟨q, hq, hxeq⟩
      rw [← hxeq]
      exact this q hq
  · have htr : translate_text cfg (some t) = t := by
      simp [translate_text, ht, hcfg]
    simp only [extract_skills, if_neg ht, htr]
    rw [extract_count_foldl]
    simp

/-- **C6.** Skill matching is whole-word and case-insensitive: for every
lowered vocabulary with distinct keys containing the entry
`("sql", "SQL")`, and translation disabled, the number of `"SQL"`
occurrences reported by `extract_skills` equals the number of isolated
whole-word occurrences of `sql` in the lowered text; in particular a text
containing `"SQLite"` registers zero matches for the entry `"SQL"`, a text
with one isolated `"SQL"` registers exactly one, and each further isolated
occurrence adds one more. -/
theorem extract_skills_whole_word (vocab : List (String × String))
    (hkeys : (vocab.map Prod.fst).Nodup)
    (hlow : ∀ q ∈ vocab, q.1 = lower q.2)
    (hmem : ("sql", "SQL") ∈ vocab)
    (cfg : SkillsCfg) (hcfg : cfg.use_translator = false) :
    (∀ t : String, (extract_skills cfg (some t) vocab).count "SQL"
        = countWordMatches "sql" (lower t)) ∧
    (extract_skills cfg (some "Experience with SQLite required") vocab).count "SQL" = 0 ∧
    (extract_skills cfg (some "Experience with SQL required") vocab).count "SQL" = 1 ∧
    (extract_skills cfg (some "SQL basics and advanced SQL") vocab).count "SQL" = 2 := by
  have hgen : ∀ t : String, (extract_skills cfg (some t) vocab).count "SQL"
      = countWordMatches "sql" (lower t) := by
    intro t
    rw [extract_skills_count cfg hcfg t vocab "SQL"]
    exact sum_single_sql (lower t) vocab hkeys hlow hmem
  refine ⟨hgen, ?_, ?_, ?_⟩
  · rw [hgen]; decide
  · rw [hgen]; decide
  · rw [hgen]; decide

/-- Witness for C6 on a concrete two-entry vocabulary. -/
theorem extract_skills_whole_word_witness :
    (extract_skills noTranslator (some "Experience with SQLite required") sqlVocab).count "SQL" = 0 ∧
    (extract_skills noTranslator (some "Experience with SQL required") sqlVocab).count "SQL" = 1 ∧
    (extract_skills noTranslator (some "SQL basics and advanced SQL") sqlVocab).count "SQL" = 2 :=
  (extract_skills_whole_word sqlVocab (by decide) (by decide) (by decide)
    noTranslator rfl).2

/-! ## C8 — `max_jobs` is a hard cap on the returned collection -/

/-- **C8 (counterexample).** With `max_jobs = 1` and one page of two valid
jobs, the merge loop runs past the target inside the page (internal count
2 > 1) — but the collection returned by `scrape` is truncated to
`max_jobs`, so it does *not* contain more than `max_jobs` records. -/
theorem scrape_over_target_cex :
    (mergeCompleted 1 [] [[jobA, jobB]]).length = 2 ∧
    scrapeResult 1 [[jobA, jobB]] = [jobA] ∧
    ¬ 1 < (scrapeResult 1 [[jobA, jobB]]).length := by decide

/-! ## C4 — expiry-text classification -/

theorem splitChAux_length (sep : Char) : ∀ (l acc : List Char),
    (splitChAux sep acc l).length = l.count sep + 1 := by
  intro l
  induction l with
  | nil => intro acc; simp [splitChAux]
  | cons c rest ih =>
    intro acc
    unfold splitChAux
    by_cases h : c = sep
    · simp [h, ih, List.count_cons]
    · simp [h, ih, List.count_cons, Ne.symm h]

theorem containsL_singleton_of_mem {c : Char} {l : List Char} (h : c ∈ l) :
    containsL [c] l = true := by
  induction l with
  | nil => cases h
  | cons x rest ih =>
    unfold containsL
    rcases List.mem_cons.mp h with h1 | h1
    · subst h1
      simp [List.isPrefixOf]
    · simp [ih h1]

/-- A cell whose full-string `%d-%m-%Y` parse succeeds contains `'-'` (so it
does reach the parsing branch of `_convert_expire_date`). -/
theorem parseDMY_some_contains_dash {s : String} {d m y : ℕ}
    (h : parseDMY s = some (d, m, y)) : containsSub s "-" = true := by
  unfold parseDMY at h
  split at h
  · rename_i p1 p2 p3 heq
    have hlen : (splitChL '-' s.data).length = 3 := by rw [heq]; rfl
    have hcount : s.data.count '-' + 1 = 3 := by
      rw [← splitChAux_length '-' s.data []]
      exact hlen
    have hmem : '-' ∈ s.data := List.count_pos_iff.mp (by omega)
    show containsL ['-'] s.data = true
    exact containsL_singleton_of_mem hmem
  · exact Option.noConfusion h

/-- **C4 (counterexample).** A string that merely *contains* a literal
`DD-MM-YYYY` date maps to the `'unknown'` sentinel, not to the parsed date:
`strptime` requires the entire cell to be the date. -/
theorem convert_expire_date_containing_cex :
    containsSub "due 31-03-2025" "31-03-2025" = true ∧
    parseDMY "31-03-2025" = some (31, 3, 2025) ∧
    convert_expire_date 0 (.str "due 31-03-2025") = .unknown ∧
    convert_expire_date 0 (.str "due 31-03-2025") ≠ .date (rataDie 2025 3 31) := by
  decide

/-- **C4 (amended).** Expiry-text classification is total, with this case
order: a string containing `"Hôm nay"` maps to today; otherwise one
containing `"ngày"` maps to today + (first number) days, or to `'unknown'`
when it holds no number; otherwise a string that *is exactly* a
`DD-MM-YYYY` date (full-string `strptime` parse) maps to that parsed date;
every other string — including strings that merely contain a date — and
every non-string maps to the literal sentinel `'unknown'`, never to null
and never by raising. -/
theorem convert_expire_date_classification (today : ℤ) :
    (∀ s : String,
      (containsSub s "Hôm nay" = true →
        convert_expire_date today (.str s) = .date today) ∧
      (containsSub s "Hôm nay" = false → containsSub s "ngày" = true →
        ∀ n, firstNat s = some n →
          convert_expire_date today (.str s) = .date (today + n)) ∧
      (containsSub s "Hôm nay" = false → containsSub s "ngày" = true →
        firstNat s = none → convert_expire_date today (.str s) = .unknown) ∧
      (containsSub s "Hôm nay" = false → containsSub s "ngày" = false →
        ∀ d m y, parseDMY s = some (d, m, y) →
          convert_expire_date today (.str s) = .date (rataDie y m d)) ∧
      (containsSub s "Hôm nay" = false → containsSub s "ngày" = false →
        parseDMY s = none → convert_expire_date today (.str s) = .unknown)) ∧
    convert_expire_date today .nonstr = .unknown := by
  refine ⟨fun s => ⟨?_, ?_, ?_, ?_, ?_⟩, rfl⟩
  · intro h1
    simp [convert_expire_date, h1]
  · intro h1 h2 n hn
    simp [convert_expire_date, h1, h2, hn]
  · intro h1 h2 hn
    simp [convert_expire_date, h1, h2, hn]
  · intro h1 h2 d m y hp
    simp [convert_expire_date, h1, h2, parseDMY_some_contains_dash hp, hp]
  · intro h1 h2 hp
    cases hdash : containsSub s "-" with
    | true => simp [convert_expire_date, h1, h2, hdash, hp]
    | false => simp [convert_expire_date, h1, h2, hdash]

/-- Witness for C4's amended classification at concrete inputs. -/
theorem convert_expire_date_classification_witness :
    convert_expire_date 0 (.str "Hôm nay") = .date 0 ∧
    convert_expire_date 0 (.str "3 ngày") = .date 3 ∧
    convert_expire_date 0 (.str "31-03-2025") = .date (rataDie 2025 3 31) ∧
    convert_expire_date 0 (.str "thỏa thuận sau") = .unknown :=
  ⟨((convert_expire_date_classification 0).1 "Hôm nay").1 (by decide),
   ((((convert_expire_date_classification 0).1 "3 ngày").2.1 (by decide) (by decide)
      3 (by decide)).trans (by decide)),
   (((convert_expire_date_classification 0).1 "31-03-2025").2.2.2.1 (by decide) (by decide)
      31 3 2025 (by decide)),
   (((convert_expire_date_classification 0).1 "thỏa thuận sau").2.2.2.2 (by decide) (by decide)
      (by decide))⟩

/-- `salaryLenDenRow` leaves rows without the `'Lên Đến'` marker unchanged,
whatever the column mean is. -/
theorem salaryLenDenRow_skip (m : Option ℚ) (r : String × Option ℚ × Option ℚ)
    (h : containsSub r.1 "Lên Đến" = false) : salaryLenDenRow m r = r := by
  unfold salaryLenDenRow
  simp [h]

/-- The exchange rate only matters for rows whose (title-cased) salary text
contains `'Usd'`. -/
theorem salaryScaleRow_rate_irrelevant (rate : ℚ) (s0 : String)
    (h : containsSub (title s0) "Usd" = false) :
    salaryScaleRow rate s0 = salaryScaleRow 0 s0 := by
  unfold salaryScaleRow
  simp [h]

/-! ## C3 — salary scaling -/

/-- **C3.** A batch row whose raw salary text is `"15 - 20 Tr Vnd"` cleans to
`Min_Salary = 15 000 000` and `Max_Salary = 20 000 000` (for any exchange
rate and any surrounding batch); a row whose raw salary text is
`"800 - 1200 USD"` cleans, under exchange rate 25505, to
`Min_Salary = 800·25505` and `Max_Salary = 1200·25505`. -/
theorem clean_salary_scaling :
    (∀ (rate : ℚ) (rows : List String) (i : ℕ),
        rows[i]? = some "15 - 20 Tr Vnd" →
        (cleanSalaryColumn rate rows)[i]? = some (some 15000000, some 20000000)) ∧
    (∀ (rows : List String) (i : ℕ),
        rows[i]? = some "800 - 1200 USD" →
        (cleanSalaryColumn 25505 rows)[i]? =
          some (some (800 * 25505), some (1200 * 25505))) := by
  constructor
  · intro rate rows i h
    unfold cleanSalaryColumn
    simp only [List.getElem?_map, h, Option.map_some']
    rw [salaryScaleRow_rate_irrelevant rate _ (by decide),
        show salaryScaleRow 0 "15 - 20 Tr Vnd"
            = ("15 - 20 Tr Vnd", some 15000000, some 20000000) from by decide,
        salaryLenDenRow_skip _ _ (by decide)]
    rfl
  · intro rows i h
    unfold cleanSalaryColumn
    simp only [List.getElem?_map, h, Option.map_some']
    rw [show salaryScaleRow 25505 "800 - 1200 USD"
          = ("800 - 1200 Usd", some (800 * 25505), some (1200 * 25505)) from by decide,
        salaryLenDenRow_skip _ _ (by decide)]
    rfl

/-- Witness for C3 at concrete one-row batches. -/
theorem clean_salary_scaling_witness :
    (cleanSalaryColumn 0 ["15 - 20 Tr Vnd"])[0]? = some (some 15000000, some 20000000) ∧
    (cleanSalaryColumn 25505 ["800 - 1200 USD"])[0]? =
      some (some (800 * 25505), some (1200 * 25505)) :=
  ⟨clean_salary_scaling.1 0 ["15 - 20 Tr Vnd"] 0 rfl,
   clean_salary_scaling.2 ["800 - 1200 USD"] 0 rfl⟩

/-! ## C5 — the "Trên X năm" experience rule -/

/-- **C5.** For a batch row whose experience text is `"Trên 5 năm"`, cleaning
yields `exp_min = 5`, the parsed `exp_max` is null going into imputation
(the "Trên" mask forces it to `NaN`), and the final `exp_max` equals
exactly the rounded batch mean of the `exp_max` column at imputation time
(`expMaxImpute`) — not a literally parsed 5. -/
theorem clean_experience_over_rule (raw : List String) (i : ℕ)
    (out : List (Option ℚ × Option ℚ))
    (hraw : raw[i]? = some "Trên 5 năm")
    (hout : cleanExperienceColumn raw = some out) :
    (∃ rows, experienceStage raw = some rows ∧
       rows[i]? = some ("Trên 5 Năm", some 5, none)) ∧
    out[i]? = some (some 5, expMaxImpute raw) := by
  obtain ⟨rows, hst, hmap⟩ :
      ∃ rows, experienceStage raw = some rows ∧
        out = rows.map (fillPair (minFill rows) (maxFill rows)) := by
    unfold cleanExperienceColumn at hout
    cases hstage : experienceStage raw with
    | none => rw [hstage] at hout; exact Option.noConfusion hout
    | some rows =>
      rw [hstage] at hout
      simp only [Option.map_some'] at hout
      exact ⟨rows, rfl, (Option.some.inj hout).symm⟩
  have hrows : rows[i]? = some ("Trên 5 Năm", some 5, none) := by
    have hform : rows = (raw.map (fun s => strip (title s))).map experienceRow := by
      unfold experienceStage at hst
      split at hst
      · exact (Option.some.inj hst).symm
      · exact Option.noConfusion hst
    rw [hform]
    simp only [List.getElem?_map, hraw, Option.map_some']
    decide
  refine ⟨⟨rows, hst, hrows⟩, ?_⟩
  rw [hmap]
  simp only [List.getElem?_map, hrows, Option.map_some']
  have himp : expMaxImpute raw = maxFill rows := by
    unfold expMaxImpute
    rw [hst]
    rfl
  rw [himp]
  simp only [fillPair, Option.or_some, Option.none_or]

/-- Witness for C5 at a concrete two-row batch: the batch mean of `exp_max`
at imputation time is 2, so the "Trên 5 năm" row imputes to 2 (not 5). -/
theorem clean_experience_over_rule_witness :
    ∃ out, cleanExperienceColumn ["Trên 5 năm", "1 - 2 năm"] = some out ∧
      out[0]? = some (some 5, expMaxImpute ["Trên 5 năm", "1 - 2 năm"]) ∧
      expMaxImpute ["Trên 5 năm", "1 - 2 năm"] = some 2 := by
  refine ⟨[(some 5, some 2), (some 1, some 2)], ?_, ?_, ?_⟩
  · decide
  · exact (clean_experience_over_rule ["Trên 5 năm", "1 - 2 năm"] 0
      [(some 5, some 2), (some 1, some 2)] (by decide) (by decide)).2
  · decide

/-- **C8 (amended).** The internal merged list may exceed `max_jobs` (a
page's records are merged with no per-record cap check), but `scrape`
slices the merged list to `all_jobs[:max_jobs]` before the validity
filter, so for every `max_jobs` and every arrival order of page results
the returned collection has at most `max_jobs` records. -/
theorem scrape_hard_cap (max_jobs : ℕ) (pages : List (List ScrapedJob)) :
    (scrapeResult max_jobs pages).length ≤ max_jobs :=
  calc (scrapeResult max_jobs pages).length
      ≤ ((mergeCompleted max_jobs [] pages).take max_jobs).length :=
        List.length_filter_le _ _
    _ ≤ max_jobs := List.length_take_le _ _
